import Mathlib

/-!
Shallow embedding of the force-directed graph visualization engine of the
repository (components `FullNetworkGraph.tsx`, `NetworkGraph.tsx`,
`GraphView.tsx`), together with theorems settling the frozen claims about
its specification.

Conventions: JavaScript numbers are modelled as `ℚ` wherever the source
computes with exact decimal constants; the one irrational constant of the
d3 cooling schedule is modelled in `ℝ`.  JavaScript `Set`s of strings are
modelled as `List String` with `contains` membership.  Fallible lookups
are `Option`s.
-/

/-- A node as consumed by `FullNetworkGraph` (interface `NetworkNode`):
`{id, name, type, isCenter?}`.  The optional `isCenter` flag defaults to
`false` (JS `undefined` is falsy). -/
structure NetworkNode where
  id : String
  name : String
  type : String
  isCenter : Bool
deriving DecidableEq, Repr

/-- An edge endpoint of `FullNetworkGraph` (`source: string | NetworkNode`). -/
inductive Endpoint where
  | str : String → Endpoint
  | node : NetworkNode → Endpoint
deriving DecidableEq, Repr

/-- Endpoint id extraction
`typeof e.source === 'string' ? e.source : e.source.id` from
`FullNetworkGraph.tsx`. -/
def Endpoint.getId : Endpoint → String
  | Endpoint.str s => s
  | Endpoint.node n => n.id

/-- An edge as consumed by `FullNetworkGraph` (interface `NetworkEdge`). -/
structure NetworkEdge where
  source : Endpoint
  target : Endpoint
  relationship : String
deriving DecidableEq, Repr

/-- The node filtering step of `FullNetworkGraph.tsx`:
`selectedTypes.size === 0 ? nodes : nodes.filter(n => selectedTypes.has(n.type) || n.isCenter)`. -/
def filteredNodes (selectedTypes : List String) (nodes : List NetworkNode) :
    List NetworkNode :=
  if selectedTypes.isEmpty then nodes
  else nodes.filter (fun n => selectedTypes.contains n.type || n.isCenter)

/-- The edge filtering step of `FullNetworkGraph.tsx`: keep an edge iff both
endpoint ids are among the ids of the filtered nodes. -/
def filteredEdges (selectedTypes : List String) (nodes : List NetworkNode)
    (edges : List NetworkEdge) : List NetworkEdge :=
  let ids := (filteredNodes selectedTypes nodes).map NetworkNode.id
  edges.filter (fun e => ids.contains e.source.getId && ids.contains e.target.getId)

/-- The sidebar's displayed selection state in `FullNetworkGraph.tsx`:
`const isSelected = selectedTypes.size === 0 || selectedTypes.has(type)`. -/
def sidebarIsSelected (selectedTypes : List String) (t : String) : Bool :=
  selectedTypes.isEmpty || selectedTypes.contains t

/-- The node filtering step as the claim words it: exactly the entities whose
category is in the selected set plus any entity with `isCenter = true`,
for every set of selected categories (no special case for the empty set).
Stated from the spec for comparison against `filteredNodes`. -/
def claimVisibleNodes (selectedTypes : List String) (nodes : List NetworkNode) :
    List NetworkNode :=
  nodes.filter (fun n => selectedTypes.contains n.type || n.isCenter)

/-- Result of `FullNetworkGraph`'s render pipeline with no type filter
active.  The component collects no warnings anywhere — the source has no
warning channel at all (no `console.warn`, no warning list) — so the
`warnings` field is constantly `[]`. -/
structure RenderResult where
  rnodes : List NetworkNode
  redges : List NetworkEdge
  warnings : List String
deriving DecidableEq, Repr

/-- The normalization/render pipeline of `FullNetworkGraph.tsx` for an
unfiltered view: nodes pass through, edges with a dangling endpoint are
silently dropped, and no warnings are produced. -/
def renderGraph (nodes : List NetworkNode) (edges : List NetworkEdge) :
    RenderResult :=
  { rnodes := filteredNodes [] nodes
    redges := filteredEdges [] nodes edges
    warnings := [] }

-- Concrete fixtures used by counterexamples and witnesses.

/-- A plain drug node that is not a center entity. -/
def drugNode : NetworkNode := { id := "1", name := "Metformin", type := "drug", isCenter := false }

/-- A disease node that is not a center entity. -/
def diseaseNode : NetworkNode := { id := "2", name := "Diabetes", type := "disease", isCenter := false }

/-- A center gene node. -/
def centerGeneNode : NetworkNode := { id := "3", name := "TP53", type := "gene", isCenter := true }

/-- An edge between the drug and disease fixtures. -/
def treatsEdge : NetworkEdge :=
  { source := Endpoint.str "1", target := Endpoint.str "2", relationship := "TREATS" }

/-- An edge whose target id `"Y"` is dangling. -/
def danglingEdge : NetworkEdge :=
  { source := Endpoint.str "X", target := Endpoint.str "Y", relationship := "BINDS" }

/-- The node with id `"X"` referenced by `danglingEdge`'s source. -/
def nodeX : NetworkNode := { id := "X", name := "X", type := "gene", isCenter := false }

example : filteredNodes [] [drugNode] = [drugNode] := by decide
example : claimVisibleNodes [] [drugNode] = [] := by decide
example : filteredNodes ["drug"] [drugNode, diseaseNode, centerGeneNode]
    = [drugNode, centerGeneNode] := by decide
example : filteredEdges ["drug"] [drugNode, diseaseNode] [treatsEdge] = [] := by decide
example : renderGraph [nodeX] [danglingEdge] =
    { rnodes := [nodeX], redges := [], warnings := [] } := by decide

/-- Membership in the filtered node list, for a nonempty selected set. -/
lemma mem_filteredNodes_of_ne_nil {selectedTypes : List String}
    (h : selectedTypes ≠ []) (nodes : List NetworkNode) (n : NetworkNode) :
    n ∈ filteredNodes selectedTypes nodes ↔
      n ∈ nodes ∧ (n.type ∈ selectedTypes ∨ n.isCenter = true) := by
  unfold filteredNodes
  rw [if_neg (by simpa using h)]
  simp [List.mem_filter, List.contains, List.elem_iff]

/-- Membership in the filtered edge list, in terms of the filtered nodes. -/
lemma mem_filteredEdges (selectedTypes : List String) (nodes : List NetworkNode)
    (edges : List NetworkEdge) (e : NetworkEdge) :
    e ∈ filteredEdges selectedTypes nodes edges ↔
      e ∈ edges ∧
      e.source.getId ∈ (filteredNodes selectedTypes nodes).map NetworkNode.id ∧
      e.target.getId ∈ (filteredNodes selectedTypes nodes).map NetworkNode.id := by
  unfold filteredEdges
  simp [List.mem_filter, List.contains, List.elem_iff, and_assoc]

/-- C1 counterexample.  The claim quantifies over every set of selected
categories; at the empty set the code renders every node (show-all),
while the claim's rule renders only entities of a selected category plus
centers — hiding the non-center drug node. -/
theorem c1_counterexample :
    filteredNodes [] [drugNode] = [drugNode] ∧
    claimVisibleNodes [] [drugNode] = [] ∧
    filteredNodes [] [drugNode] ≠ claimVisibleNodes [] [drugNode] := by
  decide

/-- C1 (amended): for every node list, edge list and **nonempty** set of
selected categories, the filtering step renders exactly the entities whose
category is in the selected set plus any entity with `isCenter = true`,
and exactly the relationships both of whose endpoint ids belong to those
visible entities; a relationship with a hidden endpoint is hidden. -/
theorem c1_filter_visibility (selectedTypes : List String)
    (nodes : List NetworkNode) (edges : List NetworkEdge)
    (h : selectedTypes ≠ []) :
    (∀ n : NetworkNode, n ∈ filteredNodes selectedTypes nodes ↔
      n ∈ nodes ∧ (n.type ∈ selectedTypes ∨ n.isCenter = true)) ∧
    (∀ e : NetworkEdge, e ∈ filteredEdges selectedTypes nodes edges ↔
      e ∈ edges ∧
      e.source.getId ∈ (filteredNodes selectedTypes nodes).map NetworkNode.id ∧
      e.target.getId ∈ (filteredNodes selectedTypes nodes).map NetworkNode.id) := by
  refine ⟨fun n => mem_filteredNodes_of_ne_nil h nodes n,
    fun e => mem_filteredEdges selectedTypes nodes edges e⟩

/-- Witness for C1 at `visibleCategories = {drug}` over the scenario nodes. -/
theorem c1_filter_visibility_witness :
    (drugNode ∈ filteredNodes ["drug"] [drugNode, diseaseNode, centerGeneNode] ↔
      drugNode ∈ [drugNode, diseaseNode, centerGeneNode] ∧
      (drugNode.type ∈ ["drug"] ∨ drugNode.isCenter = true)) ∧
    (treatsEdge ∈ filteredEdges ["drug"] [drugNode, diseaseNode, centerGeneNode] [treatsEdge] ↔
      treatsEdge ∈ [treatsEdge] ∧
      treatsEdge.source.getId ∈
        (filteredNodes ["drug"] [drugNode, diseaseNode, centerGeneNode]).map NetworkNode.id ∧
      treatsEdge.target.getId ∈
        (filteredNodes ["drug"] [drugNode, diseaseNode, centerGeneNode]).map NetworkNode.id) :=
  ⟨(c1_filter_visibility ["drug"] [drugNode, diseaseNode, centerGeneNode] [treatsEdge]
      (by decide)).1 drugNode,
   (c1_filter_visibility ["drug"] [drugNode, diseaseNode, centerGeneNode] [treatsEdge]
      (by decide)).2 treatsEdge⟩

/-- C3 counterexample.  On input with one node `"X"` and one edge
`X → Y` whose target is absent, the pipeline renders zero relationships —
but it collects **zero** warnings, not the one warning the claim
requires; the source has no warning mechanism at all. -/
theorem c3_counterexample :
    (renderGraph [nodeX] [danglingEdge]).redges = [] ∧
    (renderGraph [nodeX] [danglingEdge]).warnings.length = 0 ∧
    ¬ (renderGraph [nodeX] [danglingEdge]).warnings.length = 1 := by
  decide

/-- C3 (amended): an edge list in which every edge's target id is absent
from the node list yields zero relationships rendered and no exception
(the pipeline is a total function), and the drop is silent — no warning
is collected. -/
theorem c3_dangling_edges_dropped (nodes : List NetworkNode)
    (edges : List NetworkEdge)
    (h : ∀ e ∈ edges, e.target.getId ∉ nodes.map NetworkNode.id) :
    (renderGraph nodes edges).redges = [] ∧
    (renderGraph nodes edges).warnings = [] := by
  have hn : filteredNodes [] nodes = nodes := by simp [filteredNodes]
  have hedges : filteredEdges [] nodes edges = [] := by
    simp only [filteredEdges, hn]
    rw [List.filter_eq_nil_iff]
    intro e he hc
    rw [Bool.and_eq_true] at hc
    exact h e he (List.elem_iff.mp hc.2)
  exact ⟨hedges, rfl⟩

/-- Witness for C3 at the concrete input from the claim. -/
theorem c3_dangling_edges_dropped_witness :
    (renderGraph [nodeX] [danglingEdge]).redges = [] ∧
    (renderGraph [nodeX] [danglingEdge]).warnings = [] :=
  c3_dangling_edges_dropped [nodeX] [danglingEdge] (by decide)

/-- C9 counterexample.  With the empty selected set the code keeps every
node, but it does **not** render every relationship unchanged: an edge
with a dangling endpoint is still dropped. -/
theorem c9_counterexample :
    filteredNodes [] [nodeX] = [nodeX] ∧
    filteredEdges [] [nodeX] [danglingEdge] = [] ∧
    filteredEdges [] [nodeX] [danglingEdge] ≠ [danglingEdge] := by
  decide

/-- C9 (amended): an empty selected set means show-all rather than
hide-all: every entity is rendered unchanged, and exactly the
relationships both of whose endpoint ids appear in the node list are
rendered — in particular all of them whenever every edge endpoint is
present; the sidebar displays every category as selected. -/
theorem c9_empty_filter_shows_all (nodes : List NetworkNode)
    (edges : List NetworkEdge) :
    filteredNodes [] nodes = nodes ∧
    (∀ e : NetworkEdge, e ∈ filteredEdges [] nodes edges ↔
      e ∈ edges ∧ e.source.getId ∈ nodes.map NetworkNode.id ∧
        e.target.getId ∈ nodes.map NetworkNode.id) ∧
    ((∀ e ∈ edges, e.source.getId ∈ nodes.map NetworkNode.id ∧
        e.target.getId ∈ nodes.map NetworkNode.id) →
      filteredEdges [] nodes edges = edges) ∧
    (∀ t : String, sidebarIsSelected [] t = true) := by
  have hnodes : filteredNodes [] nodes = nodes := by
    simp [filteredNodes]
  refine ⟨hnodes, fun e => ?_, fun hwf => ?_, fun t => rfl⟩
  · have := mem_filteredEdges [] nodes edges e
    rwa [hnodes] at this
  · simp only [filteredEdges, hnodes]
    rw [List.filter_eq_self]
    intro e he
    rw [Bool.and_eq_true]
    exact ⟨List.elem_iff.mpr (hwf e he).1, List.elem_iff.mpr (hwf e he).2⟩

/-- Witness for C9: the well-formedness hypothesis discharged on the
scenario input; all nodes and the single well-formed edge survive. -/
theorem c9_empty_filter_shows_all_witness :
    filteredEdges [] [drugNode, diseaseNode] [treatsEdge] = [treatsEdge] :=
  (c9_empty_filter_shows_all [drugNode, diseaseNode] [treatsEdge]).2.2.1 (by decide)

-- ## Viewport Controller (C2)

/-- The zoom-in button factor: `zoomRef.current.scaleBy, 1.3`. -/
def zoomInFactor : ℚ := 13/10

/-- The zoom-out button factor: `zoomRef.current.scaleBy, 0.7`. -/
def zoomOutFactor : ℚ := 7/10

/-- The extent `scaleExtent([0.2, 4])` of `FullNetworkGraph.tsx`. -/
def fullGraphScaleExtent : ℚ × ℚ := (1/5, 4)

/-- The extent `scaleExtent([0.3, 4])` of `NetworkGraph.tsx`. -/
def networkGraphScaleExtent : ℚ × ℚ := (3/10, 4)

/-- Clamping of a candidate scale to the configured extent. -/
def clampScale (lo hi s : ℚ) : ℚ := max lo (min hi s)

/-- One viewport operation: the two toolbar buttons, the reset button,
a continuous gesture (wheel/pinch) with an arbitrary positive or negative
factor, and the delayed initial zoom-to-fit
(`zoomIdentity.translate(0,0).scale(0.9)`). -/
inductive ZoomOp where
  | zoomInBtn : ZoomOp
  | zoomOutBtn : ZoomOp
  | resetBtn : ZoomOp
  | gesture : ℚ → ZoomOp
  | initFit : ZoomOp

/-- Modelled from the spec: d3's zoom behavior clamps `scaleBy` and
gesture-driven scaling to the configured `scaleExtent` (the library code
is external to the repository); `zoom.transform` — used by the reset
button (`d3.zoomIdentity`, scale 1) and by the initial zoom-to-fit
(scale 0.9) — sets the scale directly. -/
def applyZoomOp (lo hi s : ℚ) : ZoomOp → ℚ
  | ZoomOp.zoomInBtn => clampScale lo hi (s * zoomInFactor)
  | ZoomOp.zoomOutBtn => clampScale lo hi (s * zoomOutFactor)
  | ZoomOp.resetBtn => 1
  | ZoomOp.gesture k => clampScale lo hi (s * k)
  | ZoomOp.initFit => 9/10

/-- The viewport scale after a sequence of zoom operations, starting from
the identity transform (scale 1). -/
def runZoom (lo hi : ℚ) (ops : List ZoomOp) : ℚ :=
  ops.foldl (fun s op => applyZoomOp lo hi s op) 1

/-- Any single zoom operation keeps an in-range scale in range, provided
the extent contains both `0.9` and `1` (true of both configured extents). -/
lemma applyZoomOp_bounded {lo hi s : ℚ} (h1 : lo ≤ 9/10) (h2 : 1 ≤ hi)
    (hs1 : lo ≤ s) (hs2 : s ≤ hi) (op : ZoomOp) :
    lo ≤ applyZoomOp lo hi s op ∧ applyZoomOp lo hi s op ≤ hi := by
  have hlohi : lo ≤ hi := le_trans h1 (by linarith)
  have hclamp : ∀ x : ℚ, lo ≤ clampScale lo hi x ∧ clampScale lo hi x ≤ hi := by
    intro x
    refine ⟨le_max_left _ _, ?_⟩
    rw [clampScale, max_le_iff]
    exact ⟨hlohi, min_le_left _ _⟩
  cases op with
  | zoomInBtn => exact hclamp _
  | zoomOutBtn => exact hclamp _
  | resetBtn => refine ⟨?_, ?_⟩ <;> simp only [applyZoomOp] <;> linarith
  | gesture k => exact hclamp _
  | initFit => refine ⟨?_, ?_⟩ <;> simp only [applyZoomOp] <;> linarith

/-- The scale invariant, for any extent containing `0.9` and `1`. -/
lemma runZoom_bounded {lo hi : ℚ} (h1 : lo ≤ 9/10) (h2 : 1 ≤ hi)
    (ops : List ZoomOp) :
    lo ≤ runZoom lo hi ops ∧ runZoom lo hi ops ≤ hi := by
  have key : ∀ (l : List ZoomOp) (s : ℚ), lo ≤ s → s ≤ hi →
      lo ≤ l.foldl (fun s op => applyZoomOp lo hi s op) s ∧
      l.foldl (fun s op => applyZoomOp lo hi s op) s ≤ hi := by
    intro l
    induction l with
    | nil => exact fun s hs1 hs2 => ⟨hs1, hs2⟩
    | cons op rest ih =>
      intro s hs1 hs2
      have hstep := applyZoomOp_bounded h1 h2 hs1 hs2 op
      exact ih _ hstep.1 hstep.2
  exact key ops 1 (by linarith) h2

/-- C2 (confirmed): for any sequence of zoom operations — zoom-in with
factor 1.3, zoom-out with factor 0.7, reset, zoom-to-fit, and arbitrary
gesture-driven zoom — the viewport scale stays within the configured
`scaleExtent` of each component; a zoom call at a bound is silently
clamped to the bound (it returns the bound rather than failing). -/
theorem c2_zoom_scale_clamped (ops : List ZoomOp) :
    (fullGraphScaleExtent.1 ≤ runZoom fullGraphScaleExtent.1 fullGraphScaleExtent.2 ops ∧
      runZoom fullGraphScaleExtent.1 fullGraphScaleExtent.2 ops ≤ fullGraphScaleExtent.2) ∧
    (networkGraphScaleExtent.1 ≤
        runZoom networkGraphScaleExtent.1 networkGraphScaleExtent.2 ops ∧
      runZoom networkGraphScaleExtent.1 networkGraphScaleExtent.2 ops ≤
        networkGraphScaleExtent.2) ∧
    applyZoomOp fullGraphScaleExtent.1 fullGraphScaleExtent.2
        fullGraphScaleExtent.2 ZoomOp.zoomInBtn = fullGraphScaleExtent.2 ∧
    applyZoomOp fullGraphScaleExtent.1 fullGraphScaleExtent.2
        fullGraphScaleExtent.1 ZoomOp.zoomOutBtn = fullGraphScaleExtent.1 := by
  refine ⟨runZoom_bounded (by norm_num [fullGraphScaleExtent])
      (by norm_num [fullGraphScaleExtent]) ops,
    runZoom_bounded (by norm_num [networkGraphScaleExtent])
      (by norm_num [networkGraphScaleExtent]) ops, ?_, ?_⟩ <;>
    simp [applyZoomOp, clampScale, zoomInFactor, zoomOutFactor,
      fullGraphScaleExtent] <;> norm_num

-- ## Layout Solver cooling schedule (C4)

/-- d3's default `alphaMin` (0.001). -/
noncomputable def alphaMinD3 : ℝ := 1/1000

/-- Modelled from the spec: the d3 force simulation's cooling schedule
(library code external to the repository).  d3 initializes
`alphaDecay = 1 - alphaMin^(1/300)`, an irrational constant, hence `ℝ`. -/
noncomputable def alphaDecayD3 : ℝ := 1 - (1/1000 : ℝ) ^ ((1 : ℝ)/300)

/-- One tick of the cooling schedule:
`alpha += (alphaTarget - alpha) * alphaDecay`. -/
noncomputable def tickAlpha (alphaTarget alpha : ℝ) : ℝ :=
  alpha + (alphaTarget - alpha) * alphaDecayD3

/-- The alpha value after `n` undisturbed ticks (no drag in progress, so
`alphaTarget = 0`), starting from the initial `alpha = 1`. -/
noncomputable def alphaSeq : ℕ → ℝ
  | 0 => 1
  | n + 1 => tickAlpha 0 (alphaSeq n)

/-- Modelled from the spec: d3 keeps stepping the simulation timer while
`alphaMin ≤ alpha` and stops scheduling ticks once `alpha < alphaMin`. -/
def simTicking (alpha : ℝ) : Prop := alphaMinD3 ≤ alpha

/-- The per-tick decay ratio `alphaMin^(1/300)`. -/
noncomputable def coolingFactor : ℝ := (1/1000 : ℝ) ^ ((1 : ℝ)/300)

lemma coolingFactor_pos : 0 < coolingFactor :=
  Real.rpow_pos_of_pos (by norm_num) _

lemma coolingFactor_lt_one : coolingFactor < 1 :=
  Real.rpow_lt_one (by norm_num) (by norm_num) (by norm_num)

lemma coolingFactor_pow_300 : coolingFactor ^ (300 : ℕ) = 1/1000 := by
  rw [coolingFactor, ← Real.rpow_natCast ((1/1000 : ℝ) ^ ((1 : ℝ)/300)) 300,
    ← Real.rpow_mul (by norm_num : (0:ℝ) ≤ 1/1000)]
  norm_num

lemma alphaSeq_eq_pow (n : ℕ) : alphaSeq n = coolingFactor ^ n := by
  induction n with
  | zero => simp [alphaSeq]
  | succ n ih =>
    show tickAlpha 0 (alphaSeq n) = _
    rw [tickAlpha, ih, alphaDecayD3]
    show coolingFactor ^ n + (0 - coolingFactor ^ n) * (1 - coolingFactor) = _
    ring

/-- C4 (confirmed): for any graph with at most 200 entities, the solver's
alpha starts at 1, strictly decays on every undisturbed tick, and falls
below the convergence threshold `alphaMin` by tick 301 — within the
claimed bound of 500 ticks — after which the simulation timer schedules
no further ticks.  (In d3 the cooling schedule is independent of the
graph, so the bound holds for connected and disconnected inputs alike.) -/
theorem c4_alpha_convergence (nodes : List NetworkNode)
    (hsize : nodes.length ≤ 200) :
    alphaSeq 0 = 1 ∧
    (∀ n : ℕ, alphaSeq (n + 1) < alphaSeq n) ∧
    (∀ n : ℕ, 301 ≤ n → alphaSeq n < alphaMinD3 ∧ ¬ simTicking (alphaSeq n)) ∧
    alphaSeq 500 < alphaMinD3 ∧ (301 : ℕ) ≤ 500 := by
  have h0 := coolingFactor_pos
  have h1 := coolingFactor_lt_one
  have hmono : ∀ n : ℕ, alphaSeq (n + 1) < alphaSeq n := by
    intro n
    rw [alphaSeq_eq_pow, alphaSeq_eq_pow, pow_succ]
    calc coolingFactor ^ n * coolingFactor < coolingFactor ^ n * 1 := by
          exact mul_lt_mul_of_pos_left h1 (pow_pos h0 n)
      _ = coolingFactor ^ n := mul_one _
  have hthresh : ∀ n : ℕ, 301 ≤ n → alphaSeq n < alphaMinD3 := by
    intro n hn
    rw [alphaSeq_eq_pow]
    have h301 : coolingFactor ^ (301 : ℕ) < alphaMinD3 := by
      have : coolingFactor ^ (301 : ℕ) = coolingFactor ^ (300 : ℕ) * coolingFactor := by
        rw [← pow_succ]
      rw [this, coolingFactor_pow_300, alphaMinD3]
      calc (1/1000 : ℝ) * coolingFactor < (1/1000 : ℝ) * 1 :=
            mul_lt_mul_of_pos_left h1 (by norm_num)
        _ = 1/1000 := mul_one _
    calc coolingFactor ^ n ≤ coolingFactor ^ (301 : ℕ) :=
          pow_le_pow_of_le_one (le_of_lt h0) (le_of_lt h1) hn
      _ < alphaMinD3 := h301
  refine ⟨rfl, hmono, fun n hn => ⟨hthresh n hn, ?_⟩, hthresh 500 (by norm_num),
    by norm_num⟩
  exact not_le.mpr (hthresh n hn)

/-- Witness for C4 on the empty graph at tick 400. -/
theorem c4_alpha_convergence_witness :
    ([] : List NetworkNode).length ≤ 200 ∧ alphaSeq 400 < alphaMinD3 :=
  ⟨by decide, ((c4_alpha_convergence [] (by decide)).2.2.1 400 (by norm_num)).1⟩

-- ## Simulation nodes, drag gesture, prop immutability (C5, C10)

/-- A mutable simulation node as d3 sees it after the
`filteredNodes.map(d => ({ ...d }))` clone: the cloned data fields plus
d3's position/velocity/fixed-position fields.  `fx`/`fy` are the pin:
`none` models JS `null`/`undefined`. -/
structure SimNode where
  id : String
  name : String
  type : String
  isCenter : Bool
  x : ℚ
  y : ℚ
  vx : ℚ
  vy : ℚ
  fx : Option ℚ
  fy : Option ℚ
deriving DecidableEq, Repr

/-- d3's default `velocityDecay` (0.4 decay, i.e. factor 0.6). -/
def velocityDecay : ℚ := 3/5

/-- Modelled from the spec: one d3 simulation tick for a single node
(library code external to the repository).  Forces first adjust the
node's velocity by an arbitrary increment `f`; then d3 integrates:
an unpinned coordinate gets `vx *= velocityDecay; x += vx`, while a
pinned coordinate is overwritten by the fixed position with its
velocity zeroed (`x = fx; vx = 0`). -/
def forceTick (f : SimNode → ℚ × ℚ) (d : SimNode) : SimNode :=
  let dv : SimNode := { d with vx := d.vx + (f d).1, vy := d.vy + (f d).2 }
  let dx : SimNode :=
    match dv.fx with
    | none => { dv with vx := dv.vx * velocityDecay, x := dv.x + dv.vx * velocityDecay }
    | some px => { dv with x := px, vx := 0 }
  match dx.fy with
  | none => { dx with vy := dx.vy * velocityDecay, y := dx.y + dx.vy * velocityDecay }
  | some py => { dx with y := py, vy := 0 }

/-- The `start` drag handler of `FullNetworkGraph.tsx`/`NetworkGraph.tsx`:
`d.fx = d.x; d.fy = d.y` (the node is pinned at its current position;
the handler also reheats the solver via `alphaTarget(0.3).restart()`). -/
def dragStarted (d : SimNode) : SimNode :=
  { d with fx := some d.x, fy := some d.y }

/-- The `drag` handler: `d.fx = event.x; d.fy = event.y` (the pin tracks
the pointer). -/
def dragged (px py : ℚ) (d : SimNode) : SimNode :=
  { d with fx := some px, fy := some py }

/-- The `end` drag handler: `d.fx = null; d.fy = null` (the pin is
cleared; the handler also lets alpha resume decay via `alphaTarget(0)`). -/
def dragEnded (d : SimNode) : SimNode :=
  { d with fx := none, fy := none }

/-- C5 (confirmed): on drag start the entity is pinned at its current
position; after any move to pointer position `(px, py)`, the next solver
tick places the entity exactly at the pointer regardless of the forces
`f`; on release the pin is cleared (`fx = fy = null`) and the next tick
moves the entity by force-driven integration again. -/
theorem c5_drag_pins_entity (d : SimNode) (px py : ℚ)
    (f g : SimNode → ℚ × ℚ) :
    (dragStarted d).fx = some d.x ∧ (dragStarted d).fy = some d.y ∧
    (forceTick f (dragged px py (dragStarted d))).x = px ∧
    (forceTick f (dragged px py (dragStarted d))).y = py ∧
    (dragEnded (dragged px py (dragStarted d))).fx = none ∧
    (dragEnded (dragged px py (dragStarted d))).fy = none ∧
    (forceTick g (dragEnded (dragged px py (dragStarted d)))).x =
      d.x + (d.vx + (g (dragEnded (dragged px py (dragStarted d)))).1) * velocityDecay := by
  refine ⟨rfl, rfl, ?_, ?_, rfl, rfl, ?_⟩ <;>
    simp [forceTick, dragged, dragStarted, dragEnded]

/-- The clone `filteredNodes.map(d => ({ ...d }))`: data fields are
copied from the incoming prop node; position/velocity are whatever seed
d3 later assigns (passed in here), the pin starts unset. -/
def cloneNode (seedx seedy : ℚ) (n : NetworkNode) : SimNode :=
  { id := n.id, name := n.name, type := n.type, isCenter := n.isCenter
    x := seedx, y := seedy, vx := 0, vy := 0, fx := none, fy := none }

/-- The state of one mounted graph component: the caller-supplied prop
arrays, and the cloned simulation arrays that d3 mutates. -/
structure SimState where
  propNodes : List NetworkNode
  propEdges : List NetworkEdge
  simNodes : List SimNode
deriving Repr

/-- Clone each prop node into a fresh simulation node; `seed i` is the
position d3 seeds for the i-th node. -/
def cloneNodes (seed : ℕ → ℚ × ℚ) (i : ℕ) : List NetworkNode → List SimNode
  | [] => []
  | n :: ns => cloneNode (seed i).1 (seed i).2 n :: cloneNodes seed (i + 1) ns

/-- Component initialization: the props are kept as passed and the
simulation works on fresh per-node clones (`simNodes`/`nodes` in the
source). -/
def initSim (seed : ℕ → ℚ × ℚ) (nodes : List NetworkNode)
    (edges : List NetworkEdge) : SimState :=
  { propNodes := nodes
    propEdges := edges
    simNodes := cloneNodes seed 0 nodes }

/-- Replace the element at index `i`, if any. -/
def modifyAt {α : Type} (f : α → α) : ℕ → List α → List α
  | _, [] => []
  | 0, a :: l => f a :: l
  | Nat.succ i, a :: l => a :: modifyAt f i l

/-- One interaction with the running simulation: a solver tick (with
arbitrary per-node force increments) or a drag event on node `i`. -/
inductive SimOp where
  | tick : (SimNode → ℚ × ℚ) → SimOp
  | dragStartAt : ℕ → SimOp
  | dragMoveAt : ℕ → ℚ → ℚ → SimOp
  | dragEndAt : ℕ → SimOp

/-- Applying one interaction: every write of ticks and drag handlers
targets the cloned `simNodes` only, as in the source. -/
def applySimOp (s : SimState) : SimOp → SimState
  | SimOp.tick f => { s with simNodes := s.simNodes.map (forceTick f) }
  | SimOp.dragStartAt i => { s with simNodes := modifyAt dragStarted i s.simNodes }
  | SimOp.dragMoveAt i px py => { s with simNodes := modifyAt (dragged px py) i s.simNodes }
  | SimOp.dragEndAt i => { s with simNodes := modifyAt dragEnded i s.simNodes }

/-- The component state after a sequence of ticks and drag events. -/
def runSim (s : SimState) (ops : List SimOp) : SimState :=
  ops.foldl applySimOp s

lemma applySimOp_preserves_props (s : SimState) (op : SimOp) :
    (applySimOp s op).propNodes = s.propNodes ∧
    (applySimOp s op).propEdges = s.propEdges := by
  cases op <;> exact ⟨rfl, rfl⟩

/-- C10 (confirmed): every node is shallow-copied into a fresh simulation
object carrying the same data attributes, and any sequence of solver
ticks and drag interactions leaves the caller-supplied `nodes` and
`edges` prop arrays exactly as they were passed in. -/
theorem c10_props_unchanged (seed : ℕ → ℚ × ℚ) (nodes : List NetworkNode)
    (edges : List NetworkEdge) (ops : List SimOp) :
    (runSim (initSim seed nodes edges) ops).propNodes = nodes ∧
    (runSim (initSim seed nodes edges) ops).propEdges = edges ∧
    (initSim seed nodes edges).simNodes.map
        (fun sn => (sn.id, sn.name, sn.type, sn.isCenter)) =
      nodes.map (fun n => (n.id, n.name, n.type, n.isCenter)) := by
  have key : ∀ (l : List SimOp) (s : SimState),
      (runSim s l).propNodes = s.propNodes ∧ (runSim s l).propEdges = s.propEdges := by
    intro l
    induction l with
    | nil => exact fun s => ⟨rfl, rfl⟩
    | cons op rest ih =>
      intro s
      have h1 := applySimOp_preserves_props s op
      have h2 := ih (applySimOp s op)
      exact ⟨h2.1.trans h1.1, h2.2.trans h1.2⟩
  refine ⟨(key ops _).1, (key ops _).2, ?_⟩
  show (cloneNodes seed 0 nodes).map _ = _
  have hclone : ∀ (ns : List NetworkNode) (i : ℕ),
      (cloneNodes seed i ns).map (fun sn => (sn.id, sn.name, sn.type, sn.isCenter)) =
        ns.map (fun n => (n.id, n.name, n.type, n.isCenter)) := by
    intro ns
    induction ns with
    | nil => intro i; rfl
    | cons n rest ih =>
      intro i
      simp [cloneNodes, cloneNode, ih (i + 1)]
  exact hclone nodes 0

-- ## Style Resolver / rendered radius and glow (C6)

/-- The closed node-category enumeration of `types.ts` (`NodeType`). -/
inductive NodeType where
  | drug : NodeType
  | disease : NodeType
  | gene : NodeType
  | pathway : NodeType
  | anatomy : NodeType
  | sideEffect : NodeType
  | symptom : NodeType
  | pharmacologicClass : NodeType
  | biologicalProcess : NodeType
  | molecularFunction : NodeType
  | cellularComponent : NodeType
deriving DecidableEq, Repr

/-- A node as consumed by `NetworkGraph` (interface `GraphNode`):
`{id, label, type, val}`. -/
structure GraphNode where
  id : String
  label : String
  type : NodeType
  val : ℚ
deriving DecidableEq, Repr

/-- JavaScript `a || b` on numbers: `b` when `a` is falsy (0), else `a`. -/
def jsNumOr (a b : ℚ) : ℚ := if a = 0 then b else a

/-- The `NetworkGraph.tsx` node radius: `.attr("r", d => 8 + (d.val || 1) * 1.5)`. -/
def networkGraphNodeRadius (n : GraphNode) : ℚ := 8 + jsNumOr n.val 1 * (3/2)

/-- Source `NetworkGraph.tsx` applies `.attr("filter", "url(#glow)")` to **every**
node circle, hovered or not, center or not. -/
def networkGraphNodeFilterAttr (n : GraphNode) : String := "url(#glow)"

/-- The `FullNetworkGraph.tsx` node radius: `25` for the center node, `18`
otherwise while unhovered; `30`/`22` during hover.  No importance or
category term exists in the source. -/
def fullGraphNodeRadius (hovered : Bool) (n : NetworkNode) : ℚ :=
  if n.isCenter then (if hovered then 30 else 25)
  else (if hovered then 22 else 18)

/-- The `FullNetworkGraph.tsx` glow: base style
`d.isCenter ? "url(#glow)" : "none"`, overridden to `"url(#glow)"` on
`mouseenter` and restored on `mouseleave`. -/
def fullGraphNodeGlowFilter (hovered : Bool) (n : NetworkNode) : String :=
  if hovered then "url(#glow)"
  else if n.isCenter then "url(#glow)" else "none"

/-- The glow rule as the claim words it: a persistent glow for center
entities, a transient glow on hover for non-center entities, and no glow
otherwise.  Stated from the spec for comparison with the rendered
attributes. -/
def claimGlowFilter (hovered isCenter : Bool) : String :=
  if isCenter || hovered then "url(#glow)" else "none"

/-- A concrete non-center `NetworkGraph` node of importance 2. -/
def geneGraphNode : GraphNode :=
  { id := "g1", label := "TP53", type := NodeType.gene, val := 2 }

/-- C6 counterexample.  Two refutations on `NetworkGraph`: (a) an
unhovered non-center node is rendered with the glow filter permanently
attached, where the claim demands glow only transiently on hover; and
(b) no base/scale pair makes the rendered radius equal
`base + scale * importance` — `val = 0` and `val = 1` render the same
radius while `val = 2` differs, because the source computes
`8 + (val || 1) * 1.5`. -/
theorem c6_counterexample :
    networkGraphNodeFilterAttr geneGraphNode = "url(#glow)" ∧
    claimGlowFilter false false = "none" ∧
    networkGraphNodeFilterAttr geneGraphNode ≠ claimGlowFilter false false ∧
    ¬ ∃ base scale : ℚ, ∀ v : ℚ,
      networkGraphNodeRadius { geneGraphNode with val := v } = base + scale * v := by
  refine ⟨rfl, rfl, by decide, ?_⟩
  rintro ⟨base, scale, h⟩
  have h0 := h 0
  have h1 := h 1
  have h2 := h 2
  simp [networkGraphNodeRadius, jsNumOr, geneGraphNode] at h0 h1 h2
  have hs : scale = 0 := by linarith
  rw [hs] at h1 h2
  linarith

/-- C6 (amended): in `FullNetworkGraph` the rendered radius depends only
on center status and hover (18/25 resting, 22/30 hovered) with no
importance or category term, the center entity's radius is strictly
larger than any non-center entity's, the center keeps a persistent glow
filter while a non-center entity is glowed only during hover; in
`NetworkGraph` the radius is `8 + 1.5 * (val or 1)` — importance-scaled
but with no center bonus — and the glow filter is attached persistently
to every node. -/
theorem c6_radius_glow (n m : NetworkNode) (g : GraphNode) (hovered : Bool)
    (hn : n.isCenter = true) (hm : m.isCenter = false) :
    fullGraphNodeRadius hovered m < fullGraphNodeRadius hovered n ∧
    fullGraphNodeRadius false m = 18 ∧ fullGraphNodeRadius false n = 25 ∧
    fullGraphNodeGlowFilter false n = "url(#glow)" ∧
    fullGraphNodeGlowFilter false m = "none" ∧
    fullGraphNodeGlowFilter true m = "url(#glow)" ∧
    networkGraphNodeRadius g = 8 + jsNumOr g.val 1 * (3/2) ∧
    networkGraphNodeFilterAttr g = "url(#glow)" := by
  refine ⟨?_, ?_, ?_, ?_, ?_, rfl, rfl, rfl⟩ <;>
    simp [fullGraphNodeRadius, fullGraphNodeGlowFilter, hn, hm] <;>
    cases hovered <;> norm_num

/-- Witness for C6 on the center gene node, the drug node, and the
concrete `NetworkGraph` gene node, unhovered. -/
theorem c6_radius_glow_witness :
    fullGraphNodeRadius false drugNode < fullGraphNodeRadius false centerGeneNode ∧
    networkGraphNodeFilterAttr geneGraphNode = "url(#glow)" :=
  ⟨(c6_radius_glow centerGeneNode drugNode geneGraphNode false rfl rfl).1,
   (c6_radius_glow centerGeneNode drugNode geneGraphNode false rfl rfl).2.2.2.2.2.2.2⟩

-- ## Viewport transform across snapshot replacement (C8)

/-- A d3 zoom transform `{k, tx, ty}` (scale and translation). -/
structure ZTransform where
  k : ℚ
  tx : ℚ
  ty : ℚ
deriving DecidableEq, Repr

/-- On every run of `FullNetworkGraph`'s render effect — in particular
when a new node/edge snapshot arrives — `svg.selectAll("*").remove()`
deletes the container that carried the previous transform and a fresh
`<g>` is appended with no transform attribute, i.e. the identity. -/
def containerTransformAfterRender : ZTransform := { k := 1, tx := 0, ty := 0 }

/-- The delayed initial zoom-to-fit of the render effect:
`zoom.transform, d3.zoomIdentity.translate(0, 0).scale(0.9)` scheduled
500 ms after the effect runs. -/
def initialFitTransform : ZTransform := { k := 9/10, tx := 0, ty := 0 }

/-- The viewport transform settled after a snapshot replacement.  The
render effect never reads the previous transform: the cleared container
starts at the identity and the zoom-to-fit timer then sets the fixed
scale-0.9 transform whatever was set before. -/
def transformAfterSnapshotReplace (prev : ZTransform) : ZTransform :=
  initialFitTransform

/-- C8 counterexample.  Replacing the snapshot while the user had panned
and zoomed to scale 2, translation (30, 40), does not preserve that
transform: the view is reset to the fixed zoom-to-fit transform. -/
theorem c8_counterexample :
    transformAfterSnapshotReplace { k := 2, tx := 30, ty := 40 } ≠
      ({ k := 2, tx := 30, ty := 40 } : ZTransform) ∧
    transformAfterSnapshotReplace { k := 2, tx := 30, ty := 40 } = initialFitTransform := by
  refine ⟨fun h => ?_, rfl⟩
  have hk := congrArg ZTransform.k h
  simp only [transformAfterSnapshotReplace, initialFitTransform] at hk
  norm_num at hk

/-- C8 (amended): when a new graph snapshot replaces the current one the
Layout Solver is reinitialized on freshly cloned, unpinned simulation
nodes, and the Viewport Controller's transform is **reset**, not
preserved: the recreated container starts at the identity transform and
the 500 ms zoom-to-fit timer then sets scale 0.9 with zero translation —
the post-reload transform is the same fixed value regardless of the
transform before the reload. -/
theorem c8_transform_reset (prev other : ZTransform) (seed : ℕ → ℚ × ℚ)
    (nodes : List NetworkNode) (edges : List NetworkEdge) :
    transformAfterSnapshotReplace prev = initialFitTransform ∧
    containerTransformAfterRender = { k := 1, tx := 0, ty := 0 } ∧
    transformAfterSnapshotReplace prev = transformAfterSnapshotReplace other ∧
    ∀ sn ∈ (initSim seed nodes edges).simNodes, sn.fx = none ∧ sn.fy = none := by
  refine ⟨rfl, rfl, rfl, ?_⟩
  have hfresh : ∀ (ns : List NetworkNode) (i : ℕ) (sn : SimNode),
      sn ∈ cloneNodes seed i ns → sn.fx = none ∧ sn.fy = none := by
    intro ns
    induction ns with
    | nil => intro i sn h; cases h
    | cons n rest ih =>
      intro i sn h
      rcases List.mem_cons.mp h with h1 | h2
      · rw [h1]; exact ⟨rfl, rfl⟩
      · exact ih (i + 1) sn h2
  exact fun sn hsn => hfresh nodes 0 sn hsn

-- ## GraphView path normalization and dedup (C7)

/-- A node object appearing in an `Explanation.path` list of
`GraphView.tsx`. -/
structure PathNode where
  id : String
  name : String
deriving DecidableEq, Repr

/-- One element of the flat path list `[Node, Rel, Node, Rel, Node]`
consumed by `GraphView.tsx`: a node object, a relationship label string,
or anything else (`null`, a number, …), which the parser treats as
invalid. -/
inductive PathItem where
  | nodeItem : PathNode → PathItem
  | relItem : String → PathItem
  | otherItem : PathItem
deriving DecidableEq, Repr

/-- A link pushed by the parser (`{source, target, label}`); the label is
whatever raw item sat between the two node positions. -/
structure PathLink where
  source : String
  target : String
  label : PathItem
deriving DecidableEq, Repr

/-- The validity test the parser applies to a path item before using it
as a node: `nodeData && typeof nodeData === 'object' && nodeData.id`
(and `targetNode && targetNode.id` for targets) — a node object with a
truthy, i.e. nonempty, id.  Returns the node when valid. -/
def asValidNode : PathItem → Option PathNode
  | PathItem.nodeItem n => if n.id = "" then none else some n
  | _ => none

/-- Push step
`if (!nodeIds.has(id)) { nodes.push(node); nodeIds.add(id); }` —
a node is appended only when its id is unseen, so the **first** record
with a given id wins. -/
def pushIfNew (seen : List String) (nodes : List PathNode) (n : PathNode) :
    List String × List PathNode :=
  if seen.contains n.id then (seen, nodes) else (n.id :: seen, nodes ++ [n])

/-- The parsing loop of `GraphView.tsx` (`for i = 0; i < len; i += 2`),
over items pre-annotated with their node-validity (`asValidNode`): at
each even index a valid node is pushed if unseen; when a following
relationship and a valid node at `i + 2` exist, the target is likewise
pushed if unseen and a link is recorded; invalid items are skipped. -/
def parseGo : List (Option PathNode × PathItem) → List String → List PathNode →
    List PathLink → List PathNode × List PathLink
  | [], _, nodes, links => (nodes, links)
  | (none, _) :: [], _, nodes, links => (nodes, links)
  | (none, _) :: _ :: rest2, seen, nodes, links => parseGo rest2 seen nodes links
  | (some n, _) :: [], seen, nodes, links => ((pushIfNew seen nodes n).2, links)
  | (some n, _) :: [_], seen, nodes, links => ((pushIfNew seen nodes n).2, links)
  | (some n, _) :: r :: (none, t) :: rest2, seen, nodes, links =>
    let sn1 := pushIfNew seen nodes n
    parseGo ((none, t) :: rest2) sn1.1 sn1.2 links
  | (some n, _) :: r :: (some m, t) :: rest2, seen, nodes, links =>
    let sn1 := pushIfNew seen nodes n
    let sn2 := pushIfNew sn1.1 sn1.2 m
    parseGo ((some m, t) :: rest2) sn2.1 sn2.2
      (links ++ [{ source := n.id, target := m.id, label := r.2 }])

/-- The `GraphView.tsx` path normalization: parse the flat path list into
node and link arrays, starting from empty accumulators. -/
def parsePath (items : List PathItem) : List PathNode × List PathLink :=
  parseGo (items.map (fun it => (asValidNode it, it))) [] [] []

/-- The invariant maintained by the parsing loop: accumulated node ids
are pairwise distinct and all recorded in the seen set. -/
def ParseInv (seen : List String) (nodes : List PathNode) : Prop :=
  (nodes.map PathNode.id).Nodup ∧ ∀ i ∈ nodes.map PathNode.id, i ∈ seen

lemma parseInv_push (seen : List String) (nodes : List PathNode) (n : PathNode)
    (h : ParseInv seen nodes) :
    ParseInv (pushIfNew seen nodes n).1 (pushIfNew seen nodes n).2 := by
  by_cases hc : seen.contains n.id = true
  · rw [pushIfNew, if_pos hc]
    exact h
  · have hninseen : n.id ∉ seen := fun hmem => hc (List.elem_iff.mpr hmem)
    have hninnodes : n.id ∉ nodes.map PathNode.id := fun hmem =>
      hninseen (h.2 _ hmem)
    rw [pushIfNew, if_neg hc]
    constructor
    · rw [List.map_append, List.nodup_append]
      refine ⟨h.1, List.nodup_singleton _, ?_⟩
      intro x hx hy
      simp at hy
      rw [hy] at hx
      exact hninnodes hx
    · intro i hi
      rw [List.map_append] at hi
      rcases List.mem_append.mp hi with h1 | h2
      · exact List.mem_cons_of_mem _ (h.2 _ h1)
      · simp at h2
        simp [h2]

lemma parseGo_nodup (items : List (Option PathNode × PathItem))
    (seen : List String) (nodes : List PathNode) (links : List PathLink) :
    ParseInv seen nodes →
    ((parseGo items seen nodes links).1.map PathNode.id).Nodup := by
  induction items, seen, nodes, links using parseGo.induct with
  | case1 seen nodes links =>
    intro h
    exact h.1
  | case2 it seen nodes links =>
    intro h
    exact h.1
  | case3 it head rest2 seen nodes links ih =>
    intro h
    rw [parseGo]
    exact ih h
  | case4 n it seen nodes links =>
    intro h
    rw [parseGo]
    exact (parseInv_push seen nodes n h).1
  | case5 n it head seen nodes links =>
    intro h
    rw [parseGo]
    exact (parseInv_push seen nodes n h).1
  | case6 n it r t rest2 seen nodes links sn1 ih =>
    intro h
    rw [parseGo]
    exact ih (parseInv_push seen nodes n h)
  | case7 n it r m t rest2 seen nodes links sn1 sn2 ih =>
    intro h
    rw [parseGo]
    exact ih (parseInv_push _ _ m (parseInv_push seen nodes n h))

/-- The number of cloned simulation nodes always equals the number of
prop nodes: `FullNetworkGraph` performs no dedup of its own. -/
lemma cloneNodes_length (seed : ℕ → ℚ × ℚ) (ns : List NetworkNode) :
    ∀ i : ℕ, (cloneNodes seed i ns).length = ns.length := by
  induction ns with
  | nil => intro i; rfl
  | cons n rest ih =>
    intro i
    simp [cloneNodes, ih (i + 1)]

/-- C7 counterexample.  For the path
`[{id:"1", name:"X"}, "treats", {id:"1", name:"Y"}]` — two records with
the same id — the parsed entity set keeps the attributes of the **first**
record (`name = "X"`), not of the later record (`name = "Y"`) as the
claim's last-write-wins rule requires. -/
theorem c7_counterexample :
    (parsePath [PathItem.nodeItem { id := "1", name := "X" },
      PathItem.relItem "treats",
      PathItem.nodeItem { id := "1", name := "Y" }]).1 =
      [{ id := "1", name := "X" }] ∧
    (parsePath [PathItem.nodeItem { id := "1", name := "X" },
      PathItem.relItem "treats",
      PathItem.nodeItem { id := "1", name := "Y" }]).1 ≠
      [{ id := "1", name := "Y" }] := by
  decide

/-- C7 (amended): normalization deduplicates entities by id with
**first**-write-wins semantics: for any input path the resulting entity
set contains at most one entity per id (its id list is duplicate-free),
and when two records share an id the surviving attributes come from the
**earlier** record in input order; `FullNetworkGraph` itself performs no
dedup at all — it clones exactly one simulation node per prop node. -/
theorem c7_dedup_first_wins (items : List PathItem) (n m : PathNode)
    (r : String) (hne : n.id ≠ "") (heq : m.id = n.id) :
    ((parsePath items).1.map PathNode.id).Nodup ∧
    (parsePath [PathItem.nodeItem n, PathItem.relItem r,
      PathItem.nodeItem m]).1 = [n] ∧
    (∀ (seed : ℕ → ℚ × ℚ) (ns : List NetworkNode) (es : List NetworkEdge),
      (initSim seed ns es).simNodes.length = ns.length) := by
  refine ⟨parseGo_nodup _ [] [] [] ⟨List.nodup_nil, by intro i hi; cases hi⟩,
    ?_, fun seed ns es => cloneNodes_length seed ns 0⟩
  have hmne : ¬ m.id = "" := by rw [heq]; exact hne
  simp only [parsePath, List.map, asValidNode, if_neg hne, if_neg hmne]
  rw [parseGo]
  rw [parseGo]
  have h1 : pushIfNew [] [] n = ([n.id], [n]) := by
    rw [pushIfNew, if_neg (by simp)]
    simp
  have h2 : pushIfNew [n.id] [n] m = ([n.id], [n]) := by
    rw [pushIfNew, if_pos (by simp [heq])]
  rw [h1]
  simp [h2]

/-- Witness for C7 with a concrete duplicated-id path. -/
theorem c7_dedup_first_wins_witness :
    (parsePath [PathItem.nodeItem { id := "2", name := "Aspirin" },
      PathItem.relItem "binds",
      PathItem.nodeItem { id := "2", name := "Ibuprofen" }]).1 =
      [{ id := "2", name := "Aspirin" }] :=
  (c7_dedup_first_wins [] { id := "2", name := "Aspirin" }
    { id := "2", name := "Ibuprofen" } "binds" (by decide) (by decide)).2.1

/-- Witness for C8: the fresh clone of the drug node is unpinned after a
snapshot replacement. -/
theorem c8_transform_reset_witness :
    (cloneNode 0 0 drugNode).fx = none ∧ (cloneNode 0 0 drugNode).fy = none :=
  (c8_transform_reset { k := 2, tx := 30, ty := 40 } { k := 1, tx := 0, ty := 0 }
    (fun _ => (0, 0)) [drugNode] []).2.2.2 (cloneNode 0 0 drugNode)
    (by simp [initSim, cloneNodes])
